import Mathlib

/-!
Verification development for the LaserChess matchmaking and relay server
(`server.py`).  The server is a single-threaded event loop; each inbound
event (connect, message, disconnect) runs one handler to completion.  We
embed the server state and every handler as executable Lean functions and
prove the specified properties about them.

Modelling conventions, each noted again at the definition it concerns:
* Python objects are aliased through the `Match` references even after a
  session is deleted from the `players` dict.  We therefore keep an object
  heap `objs` (web socket key to `Player` object, never deleted) next to
  the registry key list `reg` (the keys currently in the `players` dict).
* `random.choice` name generation and `random.randint` seed generation are
  abstracted: the connect event carries the generated name, and the seed
  is drawn from an oracle field of the state.
* The ELO delta `int(round(K * (actual - expected)))` is computed by the
  source in IEEE-754 double arithmetic; it is abstracted as a function
  parameter `EloFn` of the step semantics.  `eloDeltaEq` instantiates it
  with the values the source computes exactly when both ratings are equal
  (there `expected` is exactly 0.5 in double arithmetic).
* JSON payloads are embedded as the inductive `JVal`; a failed
  `json.loads` is the `none` payload.  Dynamic stores of ill-typed
  interior fields (a non-string `name`, a non-numeric `elo` or
  `best_score`) are outside the model: the typed extraction functions
  keep the previous value there, as noted on each extractor.
-/

namespace LaserChess

/-- A decoded JSON value, the result of a successful `json.loads`. -/
inductive JVal where
  | jnull : JVal
  | jbool (b : Bool) : JVal
  | jnum (n : Int) : JVal
  | jstr (s : String) : JVal
  | jarr (elems : List JVal) : JVal
  | jobj (fields : List (String × JVal)) : JVal

/-- `dict.get(k)` on a decoded JSON object: the value bound to the first
occurrence of key `k`, if any. -/
def jlookup (fields : List (String × JVal)) (k : String) : Option JVal :=
  (fields.find? (fun kv => kv.1 == k)).map (fun kv => kv.2)

/-- `data.get("type", "") == s` for a string `s`: true exactly when the
`type` field is present, is a string, and equals `s` (a missing field
yields the empty string, which equals no handled message type; a
non-string field compares unequal to every string in Python). -/
def typeIs (fields : List (String × JVal)) (s : String) : Bool :=
  match jlookup fields "type" with
  | some (JVal.jstr t) => t == s
  | _ => false

/-- Web socket key: stands for the `ws` connection object identity. -/
abbrev Ws := Nat

/-- The `Player` object of the source (`__slots__`): session id, persistent
client player id, display name, ELO rating, lobby flag, current match
reference (an index into the match heap), and running best score. -/
structure Player where
  id : Nat
  playerId : String
  name : String
  elo : Int
  inLobby : Bool
  matchId : Option Nat
  bestScore : Int
deriving DecidableEq, Repr

/-- The `Match` object of the source: the two participants (by web socket
key, standing for the aliased object references), the shared seed, and the
`ended` flag. -/
structure GameMatch where
  p1 : Ws
  p2 : Ws
  seed : Nat
  ended : Bool
deriving DecidableEq, Repr

/-- Outcome of a match from one participant's point of view, the source's
`result` string together with its `actual` score in the ELO formula. -/
inductive MatchOutcome where
  | win : MatchOutcome
  | lose : MatchOutcome
  | draw : MatchOutcome
deriving DecidableEq, Repr

/-- The source's result string for an outcome. -/
def MatchOutcome.toStr : MatchOutcome → String
  | .win => "win"
  | .lose => "lose"
  | .draw => "draw"

/-- `"win" if p.best_score > o.best_score else ("lose" if p.best_score <
o.best_score else "draw")`. -/
def outcomeOf (myScore oppScore : Int) : MatchOutcome :=
  if myScore > oppScore then .win
  else if myScore < oppScore then .lose
  else .draw

/-- Abstraction of the source's ELO delta `int(round(K * (actual -
expected)))` with `K = 32` and `expected = 1/(1 + 10**((oppElo -
selfElo)/400.0))`, computed by the source in IEEE-754 double arithmetic
(floating point is abstracted as this parameter of the semantics). -/
abbrev EloFn := Int → Int → MatchOutcome → Int

/-- The exact value of the source's ELO delta when both ratings are equal:
`10 ** 0.0 = 1.0` and `1.0/2.0 = 0.5` are exact in double arithmetic, so
the delta is exactly `round(32 * (actual - 0.5))`, i.e. 16, 0 or -16. -/
def eloDeltaEq : EloFn := fun _ _ outcome =>
  match outcome with
  | .win => 16
  | .draw => 0
  | .lose => -16

/-- An outbound message of the server (the JSON objects built at each
`_send` call site). -/
inductive Msg where
  | welcome (id : Nat) (name : String) : Msg
  | lobbyList (entries : List (Nat × String × Int)) (totalOnline : Nat) : Msg
  | challengeFailed (reason : String) : Msg
  | matchStart (seed : Nat) (opponent : String) (opponentElo : Int)
      (opponentPlayerId : String) : Msg
  | opponentScore (bestScore : Int) : Msg
  | matchResult (result : String) (myScore oppScore : Int) (eloChange : Int)
      (opponentName : String) (opponentElo : Int) (opponentPlayerId : String) : Msg
  | opponentDisconnected (eloChange : Int) (myScore oppScore : Int)
      (opponentName : String) (opponentElo : Int) (opponentPlayerId : String) : Msg
deriving DecidableEq, Repr

/-- The full server state: the object heap `objs` (every `Player` object
ever created, keyed by its web socket; objects stay reachable through
match references after `del players[ws]`, so they are never removed here),
the registry `reg` (insertion-ordered keys of the `players` dict), the
match heap, the `_next_id` counter, and the seed oracle standing for
`random.randint(0, 2**31 - 1)`. -/
structure ServerState where
  objs : List (Ws × Player)
  reg : List Ws
  matchHeap : List GameMatch
  nextId : Nat
  rng : Nat
deriving DecidableEq, Repr

/-- Lookup in the object heap (first entry with the given key). -/
def getObj : List (Ws × Player) → Ws → Option Player
  | [], _ => none
  | (w0, p) :: rest, w => if w0 == w then some p else getObj rest w

/-- Overwrite every entry with the given key (keys are unique in every
reachable state, this mirrors mutating the one Python object). -/
def setObj : List (Ws × Player) → Ws → Player → List (Ws × Player)
  | [], _, _ => []
  | (w0, p0) :: rest, w, q =>
      if w0 == w then (w, q) :: setObj rest w q else (w0, p0) :: setObj rest w q

/-- Insert a fresh object, overwriting any stale entry with the same key. -/
def putObj : List (Ws × Player) → Ws → Player → List (Ws × Player)
  | [], w, p => [(w, p)]
  | (w0, p0) :: rest, w, p =>
      if w0 == w then (w, p) :: rest else (w0, p0) :: putObj rest w p

/-- Dereference a player object by web socket key. -/
def getPlayer (st : ServerState) (w : Ws) : Option Player :=
  getObj st.objs w

/-- Mutate the player object at a web socket key. -/
def setPlayer (st : ServerState) (w : Ws) (q : Player) : ServerState :=
  { st with objs := setObj st.objs w q }

/-- Mutate a match object on the match heap. -/
def setMatch (st : ServerState) (mid : Nat) (m : GameMatch) : ServerState :=
  { st with matchHeap := st.matchHeap.set mid m }

/-- `players.values()` in dict insertion order, paired with the keys. -/
def registered (st : ServerState) : List (Ws × Player) :=
  st.reg.filterMap (fun w => (getPlayer st w).map (fun p => (w, p)))

/-- `_broadcast_lobby`: the lobby snapshot (id, name, elo of every
lobby-resident session, plus the total number of registered sessions)
sent to every lobby-resident session. -/
def broadcastLobby (st : ServerState) : List (Ws × Msg) :=
  let lobby := (registered st).filter (fun q => q.2.inLobby)
  let msg := Msg.lobbyList (lobby.map (fun q => (q.2.id, q.2.name, q.2.elo))) st.reg.length
  lobby.map (fun q => (q.1, msg))

/-- `data.get(k, d)` for a numeric field: the integer value when the field
is present and numeric, else the default.  (Python would store a present
ill-typed value verbatim; such payloads are outside the model.) -/
def getIntD (fields : List (String × JVal)) (k : String) (d : Int) : Int :=
  match jlookup fields k with
  | some (JVal.jnum n) => n
  | _ => d

/-- `if "name" in data and data["name"]: player.name = data["name"]`.
Truthiness of a string is non-emptiness; an ill-typed (non-string) name
value is outside the model and keeps the previous value. -/
def updateName (p : Player) (fields : List (String × JVal)) : Player :=
  match jlookup fields "name" with
  | some (JVal.jstr s) => if s == "" then p else { p with name := s }
  | _ => p

/-- `if "elo" in data: player.elo = data["elo"]` (an ill-typed
non-numeric elo value is outside the model and keeps the previous
value).  Note: no validation, no floor. -/
def updateElo (p : Player) (fields : List (String × JVal)) : Player :=
  match jlookup fields "elo" with
  | some (JVal.jnum n) => { p with elo := n }
  | _ => p

/-- The name-then-elo profile update shared by the `join_lobby`,
`rejoin_lobby` and `update_info` branches. -/
def updateNameElo (p : Player) (fields : List (String × JVal)) : Player :=
  updateElo (updateName p fields) fields

/-- `if "player_id" in data: player.player_id = data["player_id"]`
(no truthiness check in the source; non-string values are outside the
model). -/
def updatePlayerId (p : Player) (fields : List (String × JVal)) : Player :=
  match jlookup fields "player_id" with
  | some (JVal.jstr s) => { p with playerId := s }
  | _ => p

/-- The `join_lobby` branch of the handler: profile update, then
`player.in_lobby = True`, then a lobby broadcast.  Note the current match
reference is NOT cleared. -/
def joinLobby (st : ServerState) (ws : Ws) (p : Player)
    (fields : List (String × JVal)) : ServerState × List (Ws × Msg) :=
  let p1 := updatePlayerId (updateNameElo p fields) fields
  let p2 := { p1 with inLobby := true }
  let st1 := setPlayer st ws p2
  (st1, broadcastLobby st1)

/-- The `leave_lobby` branch: `player.in_lobby = False` then broadcast. -/
def leaveLobby (st : ServerState) (ws : Ws) (p : Player) :
    ServerState × List (Ws × Msg) :=
  let st1 := setPlayer st ws { p with inLobby := false }
  (st1, broadcastLobby st1)

/-- The `rejoin_lobby` branch: name/elo update, clear the match
reference, reset the running score, enter the lobby, broadcast. -/
def rejoinLobby (st : ServerState) (ws : Ws) (p : Player)
    (fields : List (String × JVal)) : ServerState × List (Ws × Msg) :=
  let p1 := updateNameElo p fields
  let p2 := { p1 with matchId := none, bestScore := 0, inLobby := true }
  let st1 := setPlayer st ws p2
  (st1, broadcastLobby st1)

/-- The `update_info` branch: name/elo update, broadcast only if the
session is lobby-resident. -/
def updateInfo (st : ServerState) (ws : Ws) (p : Player)
    (fields : List (String × JVal)) : ServerState × List (Ws × Msg) :=
  let p1 := updateNameElo p fields
  let st1 := setPlayer st ws p1
  (st1, if p1.inLobby then broadcastLobby st1 else [])

/-- `p.id == data.get("target_id")` in Python: true exactly when the
field is present and is the same integer (a missing field is `None`,
unequal to every id; non-integer numerics are outside the model). -/
def tidEq (tid : Option JVal) (pid : Nat) : Bool :=
  match tid with
  | some (JVal.jnum n) => n == (pid : Int)
  | _ => false

/-- The target-search loop of `_handle_challenge`: the first registered
session (dict order) whose id equals the requested target id. -/
def findByTid (st : ServerState) (fields : List (String × JVal)) :
    Option (Ws × Player) :=
  (registered st).find? (fun q => tidEq (jlookup fields "target_id") q.2.id)

/-- `_handle_challenge`: validate target existence and lobby residence,
then self-challenge, then requester lobby residence, failing fast with a
single `challenge_failed` message; on success create the match, move both
sessions out of the lobby into it with reset scores, send each a
`match_start` with the shared seed and the opponent's profile, and
broadcast the shrunken lobby. -/
def handleChallenge (st : ServerState) (ws : Ws) (p : Player)
    (fields : List (String × JVal)) : ServerState × List (Ws × Msg) :=
  match findByTid st fields with
  | none => (st, [(ws, Msg.challengeFailed "Player is no longer available")])
  | some (tws, t) =>
    if !t.inLobby then
      (st, [(ws, Msg.challengeFailed "Player is no longer available")])
    else if t.id == p.id then
      (st, [(ws, Msg.challengeFailed "Cannot challenge yourself")])
    else if !p.inLobby then
      (st, [(ws, Msg.challengeFailed "You are not in the lobby")])
    else
      let seed := st.rng % 2 ^ 31
      let mid := st.matchHeap.length
      let m : GameMatch := { p1 := ws, p2 := tws, seed := seed, ended := false }
      let pNew := { p with inLobby := false, matchId := some mid, bestScore := 0 }
      let tNew := { t with inLobby := false, matchId := some mid, bestScore := 0 }
      let st1 :=
        { setPlayer (setPlayer st ws pNew) tws tNew with
          matchHeap := st.matchHeap ++ [m] }
      (st1,
        [(ws, Msg.matchStart seed t.name t.elo t.playerId),
         (tws, Msg.matchStart seed p.name p.elo p.playerId)]
        ++ broadcastLobby st1)

/-- `_handle_score`: no-op without an active unended match; otherwise
store `data.get("best_score", 0)` as the running score and relay it to
the other participant. -/
def handleScore (st : ServerState) (ws : Ws) (p : Player)
    (fields : List (String × JVal)) : ServerState × List (Ws × Msg) :=
  match p.matchId with
  | none => (st, [])
  | some mid =>
    match st.matchHeap.get? mid with
    | none => (st, [])
    | some m =>
      if m.ended then (st, [])
      else
        let p1 := { p with bestScore := getIntD fields "best_score" 0 }
        let st1 := setPlayer st ws p1
        let oppWs := if m.p1 == ws then m.p2 else m.p1
        (st1, [(oppWs, Msg.opponentScore p1.bestScore)])

/-- Clear the match back-reference of the object at a key
(`x.match = None`). -/
def clearMatchRef (st : ServerState) (w : Ws) : ServerState :=
  match getPlayer st w with
  | some q => setPlayer st w { q with matchId := none }
  | none => st

/-- `_handle_match_end`: no-op without an active unended match.
Otherwise: apply the final score (defaulting to the current running
score), set `ended` before anything else, compute both outcomes and ELO
deltas from the pre-update ratings, then update and message the first
participant and then the second.  Each message reads the opponent object
at send time, so the first participant sees the second's rating before
its delta is applied, while the second sees the first's updated rating.
Finally both match references are cleared.  (The source pairs results to
participants through a dict keyed by the session ids, which are unique;
we pair directly.) -/
def handleMatchEnd (eloFn : EloFn) (st : ServerState) (ws : Ws) (p : Player)
    (fields : List (String × JVal)) : ServerState × List (Ws × Msg) :=
  match p.matchId with
  | none => (st, [])
  | some mid =>
    match st.matchHeap.get? mid with
    | none => (st, [])
    | some m =>
      if m.ended then (st, [])
      else
        let pUpd := { p with bestScore := getIntD fields "best_score" p.bestScore }
        let st1 := setPlayer st ws pUpd
        let st2 := setMatch st1 mid { m with ended := true }
        match getPlayer st2 m.p1, getPlayer st2 m.p2 with
        | some a, some b =>
          let chA := eloFn a.elo b.elo (outcomeOf a.bestScore b.bestScore)
          let chB := eloFn b.elo a.elo (outcomeOf b.bestScore a.bestScore)
          let a1 := { a with elo := max 100 (a.elo + chA) }
          let st3 := setPlayer st2 m.p1 a1
          let oppA := (getPlayer st3 m.p2).getD b
          let msgA := Msg.matchResult (outcomeOf a.bestScore b.bestScore).toStr
            a1.bestScore oppA.bestScore chA oppA.name oppA.elo oppA.playerId
          let bCur := (getPlayer st3 m.p2).getD b
          let b1 := { bCur with elo := max 100 (bCur.elo + chB) }
          let st4 := setPlayer st3 m.p2 b1
          let oppB := (getPlayer st4 m.p1).getD a1
          let msgB := Msg.matchResult (outcomeOf b.bestScore a.bestScore).toStr
            b1.bestScore oppB.bestScore chB oppB.name oppB.elo oppB.playerId
          let st5 := clearMatchRef st4 m.p1
          let st6 := clearMatchRef st5 m.p2
          (st6, [(m.p1, msgA), (m.p2, msgB)])
        | _, _ => (st2, [])

/-- The forfeiture block of `_handle_disconnect` (lines 171-194): if the
disconnecting session has an active unended match, end it, credit the
remaining participant with a guaranteed win at the current ratings
(regardless of scores), floor the update, detach the remaining
participant's match reference, and send it the `opponent_disconnected`
message with the delta and both running scores. -/
def forfeitMatch (eloFn : EloFn) (st : ServerState) (ws : Ws) (p : Player) :
    ServerState × List (Ws × Msg) :=
  match p.matchId with
  | none => (st, [])
  | some mid =>
    match st.matchHeap.get? mid with
    | none => (st, [])
    | some m =>
      if m.ended then (st, [])
      else
        let st1 := setMatch st mid { m with ended := true }
        let oppWs := if m.p1 == ws then m.p2 else m.p1
        match getPlayer st1 oppWs with
        | none => (st1, [])
        | some o =>
          let ch := eloFn o.elo p.elo MatchOutcome.win
          let o1 := { o with elo := max 100 (o.elo + ch), matchId := none }
          let st2 := setPlayer st1 oppWs o1
          (st2,
            [(oppWs, Msg.opponentDisconnected ch o1.bestScore p.bestScore
              p.name p.elo p.playerId)])

/-- `_handle_disconnect`: settle any active match as a forfeiture, then
remove the session from the registry (`del players[player.ws]`; dict keys
are unique, so removal drops every occurrence of the key), broadcasting
the lobby only if the session was lobby-resident. -/
def handleDisconnect (eloFn : EloFn) (st : ServerState) (ws : Ws) :
    ServerState × List (Ws × Msg) :=
  match getPlayer st ws with
  | none => (st, [])
  | some p =>
    let r1 := forfeitMatch eloFn st ws p
    let st2 := { r1.1 with reg := r1.1.reg.filter (fun w => !(w == ws)) }
    (st2, r1.2 ++ (if p.inLobby then broadcastLobby st2 else []))

/-- The per-message body of `handler`: a failed `json.loads` is the
`none` payload and is silently dropped (`except json.JSONDecodeError:
pass`); a decoded object is dispatched on its `type` field, every
unrecognized type falling through silently; a decoded NON-object payload
raises `AttributeError` at `data.get` — an exception the source does not
catch, modelled as `Except.error ()`. -/
def processRaw (eloFn : EloFn) (st : ServerState) (ws : Ws)
    (raw : Option JVal) : Except Unit (ServerState × List (Ws × Msg)) :=
  match getPlayer st ws with
  | none => Except.ok (st, [])
  | some p =>
    match raw with
    | none => Except.ok (st, [])
    | some (JVal.jobj fields) =>
      if typeIs fields "join_lobby" then Except.ok (joinLobby st ws p fields)
      else if typeIs fields "leave_lobby" then Except.ok (leaveLobby st ws p)
      else if typeIs fields "challenge" then Except.ok (handleChallenge st ws p fields)
      else if typeIs fields "score_update" then Except.ok (handleScore st ws p fields)
      else if typeIs fields "match_end" then Except.ok (handleMatchEnd eloFn st ws p fields)
      else if typeIs fields "rejoin_lobby" then Except.ok (rejoinLobby st ws p fields)
      else if typeIs fields "update_info" then Except.ok (updateInfo st ws p fields)
      else Except.ok (st, [])
    | some _ => Except.error ()

/-- The connect prologue of `handler`: bump `_next_id`, create the
session (default rating 1000, not in lobby, no match), register it, send
`welcome`.  The random unique display name is an event parameter. -/
def connectPlayer (st : ServerState) (ws : Ws) (name : String) :
    ServerState × List (Ws × Msg) :=
  let id := st.nextId + 1
  let p : Player :=
    { id := id, playerId := "", name := name, elo := 1000,
      inLobby := false, matchId := none, bestScore := 0 }
  let st1 :=
    { st with
      nextId := id,
      objs := putObj st.objs ws p,
      reg := if st.reg.contains ws then st.reg else st.reg ++ [ws] }
  (st1, [(ws, Msg.welcome id name)])

/-- A transport event delivered to the server core. -/
inductive Event where
  | connect (ws : Ws) (name : String) : Event
  | message (ws : Ws) (raw : Option JVal) : Event
  | disconnect (ws : Ws) : Event

/-- One step of the event loop.  An uncaught exception in the message
body escapes past the `ConnectionClosed` handler into the `finally`
block, which tears the session down exactly as a disconnect does. -/
def step (eloFn : EloFn) (st : ServerState) : Event → ServerState × List (Ws × Msg)
  | .connect ws name => connectPlayer st ws name
  | .message ws raw =>
    match processRaw eloFn st ws raw with
    | .ok r => r
    | .error _ => handleDisconnect eloFn st ws
  | .disconnect ws => handleDisconnect eloFn st ws

/-- The state reached after a list of events. -/
def runTrace (eloFn : EloFn) (st : ServerState) (events : List Event) : ServerState :=
  events.foldl (fun s e => (step eloFn s e).1) st

/-- The state at process start: empty registry, `_next_id = 0`. -/
def serverInit : ServerState :=
  { objs := [], reg := [], matchHeap := [], nextId := 0, rng := 0 }

/-! ### Basic lemmas about the state primitives -/

theorem getObj_setObj (l : List (Ws × Player)) (w w' : Ws) (q : Player) :
    getObj (setObj l w q) w' =
      if w' = w then (getObj l w).map (fun _ => q) else getObj l w' := by
  induction l with
  | nil => simp [setObj, getObj]
  | cons hd tl ih =>
    obtain ⟨w0, p0⟩ := hd
    by_cases h0 : w0 = w
    · subst h0
      by_cases h1 : w' = w0
      · subst h1; simp [setObj, getObj]
      · simp [setObj, getObj, h1, Ne.symm h1, ih]
    · by_cases h1 : w' = w
      · subst h1; simp [setObj, getObj, h0, ih]
      · simp [setObj, getObj, h0, h1, ih]

theorem getObj_putObj (l : List (Ws × Player)) (w w' : Ws) (q : Player) :
    getObj (putObj l w q) w' = if w' = w then some q else getObj l w' := by
  induction l with
  | nil =>
    simp only [putObj, getObj, beq_iff_eq]
    by_cases h : w = w'
    · subst h; simp
    · rw [if_neg h, if_neg (fun hh => h hh.symm)]
  | cons hd tl ih =>
    obtain ⟨w0, p0⟩ := hd
    by_cases h0 : w0 = w
    · subst h0
      by_cases h1 : w' = w0
      · subst h1; simp [putObj, getObj]
      · simp [putObj, getObj, h1, Ne.symm h1]
    · by_cases h1 : w' = w
      · subst h1; simp [putObj, getObj, h0, ih]
      · simp [putObj, getObj, h0, h1, ih]

theorem getPlayer_setPlayer (st : ServerState) (w w' : Ws) (q : Player) :
    getPlayer (setPlayer st w q) w' =
      if w' = w then (getPlayer st w).map (fun _ => q) else getPlayer st w' :=
  getObj_setObj st.objs w w' q

theorem getPlayer_setPlayer_self (st : ServerState) (w : Ws) (q p : Player)
    (h : getPlayer st w = some p) : getPlayer (setPlayer st w q) w = some q := by
  rw [getPlayer_setPlayer, if_pos rfl, h]; rfl

theorem getPlayer_setPlayer_ne (st : ServerState) (w w' : Ws) (q : Player)
    (h : w' ≠ w) : getPlayer (setPlayer st w q) w' = getPlayer st w' := by
  rw [getPlayer_setPlayer, if_neg h]

@[simp] theorem getPlayer_setMatch (st : ServerState) (mid : Nat) (m : GameMatch)
    (w : Ws) : getPlayer (setMatch st mid m) w = getPlayer st w := rfl

@[simp] theorem matchHeap_setMatch (st : ServerState) (mid : Nat) (m : GameMatch) :
    (setMatch st mid m).matchHeap = st.matchHeap.set mid m := rfl

@[simp] theorem reg_setPlayer (st : ServerState) (w : Ws) (q : Player) :
    (setPlayer st w q).reg = st.reg := rfl

@[simp] theorem reg_setMatch (st : ServerState) (mid : Nat) (m : GameMatch) :
    (setMatch st mid m).reg = st.reg := rfl

@[simp] theorem matchHeap_setPlayer (st : ServerState) (w : Ws) (q : Player) :
    (setPlayer st w q).matchHeap = st.matchHeap := rfl

@[simp] theorem matchHeap_clearMatchRef (st : ServerState) (w : Ws) :
    (clearMatchRef st w).matchHeap = st.matchHeap := by
  unfold clearMatchRef; split <;> rfl

@[simp] theorem reg_clearMatchRef (st : ServerState) (w : Ws) :
    (clearMatchRef st w).reg = st.reg := by
  unfold clearMatchRef; split <;> rfl

theorem updateName_matchId (p : Player) (fields : List (String × JVal)) :
    (updateName p fields).matchId = p.matchId := by
  unfold updateName; split <;> (try split) <;> rfl

theorem updateName_inLobby (p : Player) (fields : List (String × JVal)) :
    (updateName p fields).inLobby = p.inLobby := by
  unfold updateName; split <;> (try split) <;> rfl

theorem updateElo_matchId (p : Player) (fields : List (String × JVal)) :
    (updateElo p fields).matchId = p.matchId := by
  unfold updateElo; split <;> rfl

theorem updateElo_inLobby (p : Player) (fields : List (String × JVal)) :
    (updateElo p fields).inLobby = p.inLobby := by
  unfold updateElo; split <;> rfl

theorem updateNameElo_matchId (p : Player) (fields : List (String × JVal)) :
    (updateNameElo p fields).matchId = p.matchId := by
  unfold updateNameElo; rw [updateElo_matchId, updateName_matchId]

theorem updateNameElo_inLobby (p : Player) (fields : List (String × JVal)) :
    (updateNameElo p fields).inLobby = p.inLobby := by
  unfold updateNameElo; rw [updateElo_inLobby, updateName_inLobby]

theorem updatePlayerId_matchId (p : Player) (fields : List (String × JVal)) :
    (updatePlayerId p fields).matchId = p.matchId := by
  unfold updatePlayerId; split <;> rfl

theorem updatePlayerId_inLobby (p : Player) (fields : List (String × JVal)) :
    (updatePlayerId p fields).inLobby = p.inLobby := by
  unfold updatePlayerId; split <;> rfl

/-! ### The lobby/match mutual-exclusion invariant -/

/-- A session never is lobby-resident while holding a match reference. -/
def sessionOk (p : Player) : Prop := p.inLobby = true → p.matchId = none

/-- The spec's mutual-exclusion invariant, for every registered session. -/
def MutexInv (st : ServerState) : Prop :=
  ∀ w p, w ∈ st.reg → getPlayer st w = some p → sessionOk p

theorem sessionOk_of_notInLobby {q : Player} (h : q.inLobby = false) :
    sessionOk q := fun hh => absurd (h ▸ hh) (by simp)

theorem sessionOk_of_noMatch {q : Player} (h : q.matchId = none) :
    sessionOk q := fun _ => h

theorem sessionOk_congr {q p : Player} (hl : q.inLobby = p.inLobby)
    (hm : q.matchId = p.matchId) (h : sessionOk p) : sessionOk q :=
  fun hh => by rw [hm]; exact h (hl ▸ hh)

theorem MutexInv.setPlayerPres {st : ServerState} {w : Ws} {q : Player}
    (h : MutexInv st) (hq : w ∈ st.reg → sessionOk q) :
    MutexInv (setPlayer st w q) := by
  intro w' p' hw' hp'
  have hreg : w' ∈ st.reg := hw'
  rw [getPlayer_setPlayer] at hp'
  by_cases e : w' = w
  · rw [if_pos e] at hp'
    rcases Option.map_eq_some'.mp hp' with ⟨r, _, hpq⟩
    subst e
    exact hpq ▸ hq hreg
  · rw [if_neg e] at hp'
    exact h w' p' hreg hp'

theorem MutexInv.setMatchPres {st : ServerState} {mid : Nat} {m : GameMatch}
    (h : MutexInv st) : MutexInv (setMatch st mid m) :=
  fun w p hw hp => h w p hw hp

theorem MutexInv.matchHeapPres {st : ServerState} (h : MutexInv st)
    (M : List GameMatch) : MutexInv { st with matchHeap := M } :=
  fun w p hw hp => h w p hw hp

theorem MutexInv.clearMatchRefPres {st : ServerState} {w : Ws}
    (h : MutexInv st) : MutexInv (clearMatchRef st w) := by
  unfold clearMatchRef
  split
  · exact h.setPlayerPres (fun _ => sessionOk_of_noMatch rfl)
  · exact h

theorem MutexInv.regFilterPres {st : ServerState} (h : MutexInv st)
    (f : Ws → Bool) : MutexInv { st with reg := st.reg.filter f } := by
  intro w p hw hp
  exact h w p (List.mem_of_mem_filter hw) hp

theorem mutexInv_joinLobby {st : ServerState} {ws : Ws} {p : Player}
    {fields : List (String × JVal)} (h : MutexInv st)
    (hnm : ws ∈ st.reg → p.matchId = none) :
    MutexInv (joinLobby st ws p fields).1 := by
  simp only [joinLobby]
  apply h.setPlayerPres
  intro hreg
  apply sessionOk_of_noMatch
  show (updatePlayerId (updateNameElo p fields) fields).matchId = none
  rw [updatePlayerId_matchId, updateNameElo_matchId]
  exact hnm hreg

theorem mutexInv_leaveLobby {st : ServerState} {ws : Ws} {p : Player}
    (h : MutexInv st) : MutexInv (leaveLobby st ws p).1 := by
  simp only [leaveLobby]
  exact h.setPlayerPres (fun _ => sessionOk_of_notInLobby rfl)

theorem mutexInv_rejoinLobby {st : ServerState} {ws : Ws} {p : Player}
    {fields : List (String × JVal)} (h : MutexInv st) :
    MutexInv (rejoinLobby st ws p fields).1 := by
  simp only [rejoinLobby]
  exact h.setPlayerPres (fun _ => sessionOk_of_noMatch rfl)

theorem mutexInv_updateInfo {st : ServerState} {ws : Ws} {p : Player}
    {fields : List (String × JVal)} (h : MutexInv st)
    (hp : getPlayer st ws = some p) :
    MutexInv (updateInfo st ws p fields).1 := by
  simp only [updateInfo]
  apply h.setPlayerPres
  intro hreg
  exact sessionOk_congr (updateNameElo_inLobby p fields)
    (updateNameElo_matchId p fields) (h ws p hreg hp)

theorem mutexInv_handleChallenge {st : ServerState} {ws : Ws} {p : Player}
    {fields : List (String × JVal)} (h : MutexInv st) :
    MutexInv (handleChallenge st ws p fields).1 := by
  cases hf : findByTid st fields with
  | none => simp only [handleChallenge, hf]; exact h
  | some tq =>
    obtain ⟨tws, t⟩ := tq
    cases h1 : t.inLobby with
    | false => simp only [handleChallenge, hf, h1]; exact h
    | true =>
      cases h2 : t.id == p.id with
      | true => simp [handleChallenge, hf, h1, h2]; exact h
      | false =>
        cases h3 : p.inLobby with
        | false => simp [handleChallenge, hf, h1, h2, h3]; exact h
        | true =>
          simp only [handleChallenge, hf, h1, h2, h3, Bool.not_true, Bool.not_false,
            Bool.false_eq_true, if_false, if_true]
          exact MutexInv.matchHeapPres
            ((h.setPlayerPres (fun _ => sessionOk_of_notInLobby rfl)).setPlayerPres
              (fun _ => sessionOk_of_notInLobby rfl)) _

theorem mutexInv_handleScore {st : ServerState} {ws : Ws} {p : Player}
    {fields : List (String × JVal)} (h : MutexInv st)
    (hp : getPlayer st ws = some p) :
    MutexInv (handleScore st ws p fields).1 := by
  cases hmid : p.matchId with
  | none => simp only [handleScore, hmid]; exact h
  | some mid =>
    cases hm : st.matchHeap.get? mid with
    | none => simp only [handleScore, hmid, hm]; exact h
    | some m =>
      cases he : m.ended with
      | true => simp only [handleScore, hmid, hm, he, if_true]; exact h
      | false =>
        simp only [handleScore, hmid, hm, he, Bool.false_eq_true, if_false]
        apply h.setPlayerPres
        intro hreg hl
        have h0 := h ws p hreg hp hl
        rw [hmid] at h0
        exact Option.noConfusion h0

theorem mutexInv_handleMatchEnd {eloFn : EloFn} {st : ServerState} {ws : Ws}
    {p : Player} {fields : List (String × JVal)} (h : MutexInv st)
    (hp : getPlayer st ws = some p) :
    MutexInv (handleMatchEnd eloFn st ws p fields).1 := by
  cases hmid : p.matchId with
  | none => simp only [handleMatchEnd, hmid]; exact h
  | some mid =>
    cases hm : st.matchHeap.get? mid with
    | none => simp only [handleMatchEnd, hmid, hm]; exact h
    | some m =>
      cases he : m.ended with
      | true => simp only [handleMatchEnd, hmid, hm, he, if_true]; exact h
      | false =>
        simp only [handleMatchEnd, hmid, hm, he, Bool.false_eq_true, if_false,
          getPlayer_setMatch]
        set pU : Player :=
          { p with
            matchId := some mid,
            bestScore := getIntD fields "best_score" p.bestScore } with hpU
        set st1 := setPlayer st ws pU with hst1
        have hOk : ws ∈ st.reg → sessionOk pU := by
          intro hreg hl
          have h0 := h ws p hreg hp hl
          rw [hmid] at h0
          exact Option.noConfusion h0
        have h1 : MutexInv st1 := h.setPlayerPres hOk
        have h2 : MutexInv (setMatch st1 mid { m with ended := true }) := h1.setMatchPres
        cases ha : getPlayer st1 m.p1 with
        | none => exact h2
        | some a =>
          cases hb : getPlayer st1 m.p2 with
          | none => exact h2
          | some b =>
            set a1 : Player := { a with elo := max 100 (a.elo +
              eloFn a.elo b.elo (outcomeOf a.bestScore b.bestScore)) } with ha1
            set st3 := setPlayer (setMatch st1 mid { m with ended := true }) m.p1 a1
              with hst3
            have h3 : MutexInv st3 := h2.setPlayerPres (fun hreg => h2 m.p1 a hreg ha)
            apply MutexInv.clearMatchRefPres
            apply MutexInv.clearMatchRefPres
            apply MutexInv.setPlayerPres h3
            intro hreg
            cases hx : getPlayer st3 m.p2 with
            | none => exact h2 m.p2 b hreg hb
            | some x => exact h3 m.p2 x hreg hx

theorem mutexInv_forfeitMatch {eloFn : EloFn} {st : ServerState} {ws : Ws}
    {p : Player} (h : MutexInv st) :
    MutexInv (forfeitMatch eloFn st ws p).1 := by
  cases hmid : p.matchId with
  | none => simp only [forfeitMatch, hmid]; exact h
  | some mid =>
    cases hm : st.matchHeap.get? mid with
    | none => simp only [forfeitMatch, hmid, hm]; exact h
    | some m =>
      cases he : m.ended with
      | true => simp only [forfeitMatch, hmid, hm, he, if_true]; exact h
      | false =>
        simp only [forfeitMatch, hmid, hm, he, Bool.false_eq_true, if_false,
          getPlayer_setMatch]
        have h1 : MutexInv (setMatch st mid { m with ended := true }) := h.setMatchPres
        cases ho : getPlayer st (if m.p1 == ws then m.p2 else m.p1) with
        | none => exact h1
        | some o => exact h1.setPlayerPres (fun _ => sessionOk_of_noMatch rfl)

theorem mutexInv_handleDisconnect {eloFn : EloFn} {st : ServerState} {ws : Ws}
    (h : MutexInv st) : MutexInv (handleDisconnect eloFn st ws).1 := by
  cases hp : getPlayer st ws with
  | none => simp only [handleDisconnect, hp]; exact h
  | some p =>
    simp only [handleDisconnect, hp]
    exact (mutexInv_forfeitMatch h).regFilterPres _

theorem mutexInv_connect {st : ServerState} {ws : Ws} {name : String}
    (h : MutexInv st) : MutexInv (connectPlayer st ws name).1 := by
  simp only [connectPlayer]
  intro w' p' hw' hp'
  have hp2 : getObj (putObj st.objs ws
      { id := st.nextId + 1, playerId := "", name := name, elo := 1000,
        inLobby := false, matchId := none, bestScore := 0 }) w' = some p' := hp'
  rw [getObj_putObj] at hp2
  have hw2 : w' ∈ (if st.reg.contains ws = true then st.reg else st.reg ++ [ws]) := hw'
  by_cases e : w' = ws
  · rw [if_pos e] at hp2
    cases hp2
    exact sessionOk_of_notInLobby rfl
  · rw [if_neg e] at hp2
    have hreg : w' ∈ st.reg := by
      by_cases hc : st.reg.contains ws = true
      · rw [if_pos hc] at hw2; exact hw2
      · rw [if_neg hc] at hw2
        rcases List.mem_append.mp hw2 with hin | hin
        · exact hin
        · exact absurd (List.mem_singleton.mp hin) e
    exact h w' p' hreg hp2

/-! ### Functional characterization of match resolution -/

theorem handleMatchEnd_stale (eloFn : EloFn) (st : ServerState) (ws : Ws)
    (p : Player) (fields : List (String × JVal))
    (hstale : p.matchId = none ∨ ∃ mid m, p.matchId = some mid ∧
      st.matchHeap.get? mid = some m ∧ m.ended = true) :
    handleMatchEnd eloFn st ws p fields = (st, []) := by
  rcases hstale with hnone | ⟨mid, m, hmid, hm, he⟩
  · simp only [handleMatchEnd, hnone]
  · simp only [handleMatchEnd, hmid, hm, he, if_true]

theorem forfeitMatch_stale (eloFn : EloFn) (st : ServerState) (ws : Ws)
    (p : Player)
    (hstale : p.matchId = none ∨ ∃ mid m, p.matchId = some mid ∧
      st.matchHeap.get? mid = some m ∧ m.ended = true) :
    forfeitMatch eloFn st ws p = (st, []) := by
  rcases hstale with hnone | ⟨mid, m, hmid, hm, he⟩
  · simp only [forfeitMatch, hnone]
  · simp only [forfeitMatch, hmid, hm, he, if_true]

theorem handleMatchEnd_setsEnded (eloFn : EloFn) (st : ServerState) (ws : Ws)
    (p : Player) (fields : List (String × JVal)) (mid : Nat) (m : GameMatch)
    (hmid : p.matchId = some mid) (hm : st.matchHeap.get? mid = some m)
    (hend : m.ended = false) :
    (handleMatchEnd eloFn st ws p fields).1.matchHeap.get? mid =
      some { m with ended := true } := by
  have hlen : mid < st.matchHeap.length := by
    rw [List.get?_eq_getElem?] at hm
    exact (List.getElem?_eq_some_iff.mp hm).1
  simp only [handleMatchEnd, hmid, hm, hend, Bool.false_eq_true, if_false]
  split
  · simp [List.getElem?_set_self hlen]
  · simp [List.getElem?_set_self hlen]

theorem forfeitMatch_setsEnded (eloFn : EloFn) (st : ServerState) (ws : Ws)
    (p : Player) (mid : Nat) (m : GameMatch)
    (hmid : p.matchId = some mid) (hm : st.matchHeap.get? mid = some m)
    (hend : m.ended = false) :
    (forfeitMatch eloFn st ws p).1.matchHeap.get? mid =
      some { m with ended := true } := by
  have hlen : mid < st.matchHeap.length := by
    rw [List.get?_eq_getElem?] at hm
    exact (List.getElem?_eq_some_iff.mp hm).1
  simp only [forfeitMatch, hmid, hm, hend, Bool.false_eq_true, if_false]
  split
  · simp [List.getElem?_set_self hlen]
  · simp [List.getElem?_set_self hlen]

theorem forfeitMatch_spec (eloFn : EloFn) (st : ServerState) (ws : Ws)
    (p : Player) (mid : Nat) (m : GameMatch) (oppWs : Ws) (o : Player)
    (hmid : p.matchId = some mid) (hm : st.matchHeap.get? mid = some m)
    (hend : m.ended = false)
    (how : oppWs = if m.p1 == ws then m.p2 else m.p1)
    (ho : getPlayer st oppWs = some o) :
    forfeitMatch eloFn st ws p =
      (setPlayer (setMatch st mid { m with ended := true }) oppWs
        { o with
          elo := max 100 (o.elo + eloFn o.elo p.elo MatchOutcome.win),
          matchId := none },
       [(oppWs, Msg.opponentDisconnected (eloFn o.elo p.elo MatchOutcome.win)
          o.bestScore p.bestScore p.name p.elo p.playerId)]) := by
  subst how
  simp only [forfeitMatch, hmid, hm, hend, Bool.false_eq_true, if_false,
    getPlayer_setMatch, ho]

/-- Full characterization of a successful `_handle_match_end` resolution
(participants distinct, both objects present after the sender's final
score is stored): the two `match_result` messages — note the first
participant's message carries the second's PRE-update rating `b.elo`
while the second's message carries the first's updated rating — the two
updated player objects (delta applied, floored at 100, match reference
cleared), and the ended match on the heap. -/
theorem handleMatchEnd_spec (eloFn : EloFn) (st : ServerState) (ws : Ws)
    (p : Player) (fields : List (String × JVal)) (mid : Nat) (m : GameMatch)
    (a b : Player)
    (hmid : p.matchId = some mid)
    (hm : st.matchHeap.get? mid = some m)
    (hend : m.ended = false)
    (hne : m.p1 ≠ m.p2)
    (ha : getPlayer (setPlayer st ws
      { p with
        matchId := some mid,
        bestScore := getIntD fields "best_score" p.bestScore }) m.p1 = some a)
    (hb : getPlayer (setPlayer st ws
      { p with
        matchId := some mid,
        bestScore := getIntD fields "best_score" p.bestScore }) m.p2 = some b) :
    (handleMatchEnd eloFn st ws p fields).2 =
      [(m.p1, Msg.matchResult (outcomeOf a.bestScore b.bestScore).toStr
          a.bestScore b.bestScore
          (eloFn a.elo b.elo (outcomeOf a.bestScore b.bestScore))
          b.name b.elo b.playerId),
       (m.p2, Msg.matchResult (outcomeOf b.bestScore a.bestScore).toStr
          b.bestScore a.bestScore
          (eloFn b.elo a.elo (outcomeOf b.bestScore a.bestScore))
          a.name (max 100 (a.elo + eloFn a.elo b.elo (outcomeOf a.bestScore b.bestScore)))
          a.playerId)]
    ∧ getPlayer (handleMatchEnd eloFn st ws p fields).1 m.p1 =
        some { a with
          elo := max 100 (a.elo + eloFn a.elo b.elo (outcomeOf a.bestScore b.bestScore)),
          matchId := none }
    ∧ getPlayer (handleMatchEnd eloFn st ws p fields).1 m.p2 =
        some { b with
          elo := max 100 (b.elo + eloFn b.elo a.elo (outcomeOf b.bestScore a.bestScore)),
          matchId := none }
    ∧ (handleMatchEnd eloFn st ws p fields).1.matchHeap.get? mid =
        some { m with ended := true } := by
  have hne2 : ¬ (m.p2 = m.p1) := fun hh => hne hh.symm
  have hlen : mid < st.matchHeap.length := by
    rw [List.get?_eq_getElem?] at hm
    exact (List.getElem?_eq_some_iff.mp hm).1
  simp only [handleMatchEnd, hmid, hm, hend, Bool.false_eq_true, if_false,
    getPlayer_setMatch]
  rw [ha, hb]
  refine ⟨?_, ?_, ?_, ?_⟩
  · simp [getPlayer_setPlayer_ne, getPlayer_setPlayer_self, ha, hb, hne, hne2,
      clearMatchRef, List.getElem?_set_self hlen]
  · simp [getPlayer_setPlayer_ne, getPlayer_setPlayer_self, ha, hb, hne, hne2,
      clearMatchRef, List.getElem?_set_self hlen]
  · simp [getPlayer_setPlayer_ne, getPlayer_setPlayer_self, ha, hb, hne, hne2,
      clearMatchRef]
    rw [getPlayer_setPlayer, if_pos rfl, getPlayer_setPlayer, if_neg hne2,
      getPlayer_setPlayer, if_pos rfl, getPlayer_setPlayer, if_neg hne2,
      getPlayer_setMatch, hb]
    rfl
  · simp [getPlayer_setPlayer_ne, getPlayer_setPlayer_self, ha, hb, hne, hne2,
      clearMatchRef, List.getElem?_set_self hlen]

/-- The one event shape that can break the mutual-exclusion invariant: a
`join_lobby` message from a registered session that currently holds a
match reference. -/
def joinsWhileMatched (st : ServerState) : Event → Prop
  | Event.message ws (some (JVal.jobj fields)) =>
      typeIs fields "join_lobby" = true ∧ ws ∈ st.reg ∧
        ∃ p, getPlayer st ws = some p ∧ p.matchId ≠ none
  | _ => False

theorem mutexInv_step (eloFn : EloFn) (st : ServerState) (e : Event)
    (h : MutexInv st) (hj : ¬ joinsWhileMatched st e) :
    MutexInv (step eloFn st e).1 := by
  cases e with
  | connect ws name => exact mutexInv_connect h
  | disconnect ws => exact mutexInv_handleDisconnect h
  | message ws raw =>
    cases hp : getPlayer st ws with
    | none =>
      cases raw with
      | none => simp only [step, processRaw, hp]; exact h
      | some v => simp only [step, processRaw, hp]; exact h
    | some p =>
      cases raw with
      | none => simp only [step, processRaw, hp]; exact h
      | some v =>
        cases v with
        | jnull => simp only [step, processRaw, hp]; exact mutexInv_handleDisconnect h
        | jbool b => simp only [step, processRaw, hp]; exact mutexInv_handleDisconnect h
        | jnum n => simp only [step, processRaw, hp]; exact mutexInv_handleDisconnect h
        | jstr s => simp only [step, processRaw, hp]; exact mutexInv_handleDisconnect h
        | jarr elems => simp only [step, processRaw, hp]; exact mutexInv_handleDisconnect h
        | jobj fields =>
          cases t1 : typeIs fields "join_lobby" with
          | true =>
            simp only [step, processRaw, hp, t1, if_true]
            apply mutexInv_joinLobby h
            intro hreg
            by_contra hcon
            exact hj ⟨t1, hreg, p, hp, hcon⟩
          | false =>
            cases t2 : typeIs fields "leave_lobby" with
            | true =>
              simp only [step, processRaw, hp, t1, t2, Bool.false_eq_true, if_false, if_true]
              exact mutexInv_leaveLobby h
            | false =>
              cases t3 : typeIs fields "challenge" with
              | true =>
                simp only [step, processRaw, hp, t1, t2, t3, Bool.false_eq_true,
                  if_false, if_true]
                exact mutexInv_handleChallenge h
              | false =>
                cases t4 : typeIs fields "score_update" with
                | true =>
                  simp only [step, processRaw, hp, t1, t2, t3, t4, Bool.false_eq_true,
                    if_false, if_true]
                  exact mutexInv_handleScore h hp
                | false =>
                  cases t5 : typeIs fields "match_end" with
                  | true =>
                    simp only [step, processRaw, hp, t1, t2, t3, t4, t5,
                      Bool.false_eq_true, if_false, if_true]
                    exact mutexInv_handleMatchEnd h hp
                  | false =>
                    cases t6 : typeIs fields "rejoin_lobby" with
                    | true =>
                      simp only [step, processRaw, hp, t1, t2, t3, t4, t5, t6,
                        Bool.false_eq_true, if_false, if_true]
                      exact mutexInv_rejoinLobby h
                    | false =>
                      cases t7 : typeIs fields "update_info" with
                      | true =>
                        simp only [step, processRaw, hp, t1, t2, t3, t4, t5, t6, t7,
                          Bool.false_eq_true, if_false, if_true]
                        exact mutexInv_updateInfo h hp
                      | false =>
                        simp only [step, processRaw, hp, t1, t2, t3, t4, t5, t6, t7,
                          Bool.false_eq_true, if_false]
                        exact h

/-! ### Concrete scenario states (used by witnesses and counterexamples) -/

/-- A bare `join_lobby` payload. -/
def joinPayload : Option JVal := some (JVal.jobj [("type", JVal.jstr "join_lobby")])

/-- A `challenge` payload targeting session id 2. -/
def challengeP2 : Option JVal :=
  some (JVal.jobj [("type", JVal.jstr "challenge"), ("target_id", JVal.jnum 2)])

/-- A `match_end` payload reporting a final best score of 10. -/
def endFields : List (String × JVal) :=
  [("type", JVal.jstr "match_end"), ("best_score", JVal.jnum 10)]

/-- The `match_end` payload built from `endFields`. -/
def matchEndPayload : Option JVal := some (JVal.jobj endFields)

/-- Two clients connect, both join the lobby, the first challenges the
second (the scenario of the spec). -/
def matchTrace : List Event :=
  [Event.connect 1 "AA", Event.connect 2 "BB",
   Event.message 1 joinPayload, Event.message 2 joinPayload,
   Event.message 1 challengeP2]

/-- The state with sessions 1 and 2 paired in match 0. -/
def stMatched : ServerState := runTrace eloDeltaEq serverInit matchTrace

/-- One connected session, not yet in the lobby. -/
def stOne : ServerState := runTrace eloDeltaEq serverInit [Event.connect 1 "AA"]

/-- One connected session that joined the lobby. -/
def stLobby1 : ServerState :=
  runTrace eloDeltaEq serverInit [Event.connect 1 "AA", Event.message 1 joinPayload]

/-- Two sessions; only the second joined the lobby. -/
def stTargetLobby : ServerState :=
  runTrace eloDeltaEq serverInit
    [Event.connect 1 "AA", Event.connect 2 "BB", Event.message 2 joinPayload]

/-- Session 1's player object in `stMatched`. -/
def matchedP1 : Player :=
  { id := 1, playerId := "", name := "AA", elo := 1000, inLobby := false,
    matchId := some 0, bestScore := 0 }

/-- Session 2's player object in `stMatched`. -/
def matchedP2 : Player :=
  { id := 2, playerId := "", name := "BB", elo := 1000, inLobby := false,
    matchId := some 0, bestScore := 0 }

/-- The state after session 1 ends the match of `stMatched` with score 10. -/
def stResolved : ServerState :=
  (step eloDeltaEq stMatched (Event.message 1 matchEndPayload)).1

/-! ### Claim C1 -/

/-- Claim C1 (counterexample): the mutual-exclusion invariant does NOT hold
after every processed event.  In the reachable state where sessions 1 and
2 are matched, a further `join_lobby` message from session 1 leaves it
lobby-resident while still holding its match reference. -/
theorem c1_counterexample :
    ¬ MutexInv (runTrace eloDeltaEq serverInit
      (matchTrace ++ [Event.message 1 joinPayload])) := by
  intro h
  have hs := h 1
    { id := 1, playerId := "", name := "AA", elo := 1000, inLobby := true,
      matchId := some 0, bestScore := 0 }
    (by decide) rfl
  exact Option.noConfusion (hs rfl)

/-- Claim C1 (amended): lobby membership and an active match reference are
mutually exclusive in the initial state, and every event preserves the
invariant EXCEPT a `join_lobby` message from a registered session that
currently holds a match reference (`join_lobby` sets the lobby flag
without clearing the match). -/
theorem c1_mutex_amended :
    MutexInv serverInit ∧
      ∀ (eloFn : EloFn) (st : ServerState) (e : Event), MutexInv st →
        ¬ joinsWhileMatched st e → MutexInv (step eloFn st e).1 :=
  ⟨fun w _ hw _ => absurd hw (List.not_mem_nil w),
   fun eloFn st e h hj => mutexInv_step eloFn st e h hj⟩

/-- Claim C1 witness: the amended preservation theorem applied at a concrete
step from the initial state. -/
theorem c1_mutex_witness :
    MutexInv (step eloDeltaEq serverInit (Event.connect 1 "AA")).1 :=
  c1_mutex_amended.2 eloDeltaEq serverInit (Event.connect 1 "AA")
    c1_mutex_amended.1 (fun hf => hf)

/-! ### Claim C2 -/

/-- Claim C2: `endMatch` and `forfeit` are idempotent — on a session with no
match reference, or one whose referenced match has `ended = true`, both
return the state unchanged and send nothing — and whichever of the two
resolves a live match first sets its `ended` flag, making the other (and
any repeat) a no-op: every match is resolved exactly once. -/
theorem c2_resolution_idempotent (eloFn : EloFn) (st : ServerState) (ws : Ws)
    (p : Player) (fields : List (String × JVal)) :
    ((p.matchId = none ∨ ∃ mid m, p.matchId = some mid ∧
        st.matchHeap.get? mid = some m ∧ m.ended = true) →
      handleMatchEnd eloFn st ws p fields = (st, []) ∧
      forfeitMatch eloFn st ws p = (st, []))
    ∧ ∀ mid m, p.matchId = some mid → st.matchHeap.get? mid = some m →
        m.ended = false →
        (handleMatchEnd eloFn st ws p fields).1.matchHeap.get? mid =
          some { m with ended := true } ∧
        (forfeitMatch eloFn st ws p).1.matchHeap.get? mid =
          some { m with ended := true } := by
  constructor
  · intro hstale
    exact ⟨handleMatchEnd_stale eloFn st ws p fields hstale,
      forfeitMatch_stale eloFn st ws p hstale⟩
  · intro mid m hmid hm hend
    exact ⟨handleMatchEnd_setsEnded eloFn st ws p fields mid m hmid hm hend,
      forfeitMatch_setsEnded eloFn st ws p mid m hmid hm hend⟩

/-- Claim C2 witness: in `stResolved` match 0 is already ended, so both
resolution paths are no-ops for a session still referencing it; and on
the live match of `stMatched` either path marks it ended. -/
theorem c2_resolution_witness :
    (handleMatchEnd eloDeltaEq stResolved 1
      { matchedP1 with elo := 1016, bestScore := 10 } [] = (stResolved, []) ∧
     forfeitMatch eloDeltaEq stResolved 1
      { matchedP1 with elo := 1016, bestScore := 10 } = (stResolved, []))
    ∧ ((handleMatchEnd eloDeltaEq stMatched 1 matchedP1 []).1.matchHeap.get? 0 =
        some { p1 := 1, p2 := 2, seed := 0, ended := true } ∧
       (forfeitMatch eloDeltaEq stMatched 1 matchedP1).1.matchHeap.get? 0 =
        some { p1 := 1, p2 := 2, seed := 0, ended := true }) :=
  ⟨(c2_resolution_idempotent eloDeltaEq stResolved 1
      { matchedP1 with elo := 1016, bestScore := 10 } []).1
      (Or.inr ⟨0, { p1 := 1, p2 := 2, seed := 0, ended := true }, rfl, rfl, rfl⟩),
   (c2_resolution_idempotent eloDeltaEq stMatched 1 matchedP1 []).2
      0 { p1 := 1, p2 := 2, seed := 0, ended := false } rfl rfl rfl⟩

/-! ### Claim C3 -/

/-- Claim C3 (counterexample): resolving the equal-rating match of `stMatched`
with scores 10 vs 0, the message to the first participant reports the
opponent at rating 1000, but the opponent's updated (post-delta) stored
rating is 984 — the first participant's `match_result` carries the
opponent's PRE-update rating, refuting the claim that both messages carry
the updated rating. -/
theorem c3_counterexample :
    (step eloDeltaEq stMatched (Event.message 1 matchEndPayload)).2 =
      [(1, Msg.matchResult "win" 10 0 16 "BB" 1000 ""),
       (2, Msg.matchResult "lose" 0 10 (-16) "AA" 1016 "")]
    ∧ (getPlayer (step eloDeltaEq stMatched
        (Event.message 1 matchEndPayload)).1 2).map Player.elo = some 984
    ∧ (1000 : Int) ≠ 984 :=
  ⟨rfl, rfl, by decide⟩

/-- Claim C3 (amended): on a successful `endMatch` resolution each participant
receives a `match_result` with outcome, both final scores, its rating
delta, and the opponent's name and client id; the opponent-rating field of
the SECOND participant's message holds the first participant's updated
(post-delta, floored) rating, but the FIRST participant's message holds
the second's pre-update rating (the messages are sent inside the update
loop, before the second participant's rating is written).  Both stored
ratings end updated and floored, with the match reference cleared. -/
theorem c3_match_result_ratings (eloFn : EloFn) (st : ServerState) (ws : Ws)
    (p : Player) (fields : List (String × JVal)) (mid : Nat) (m : GameMatch)
    (a b : Player)
    (hmid : p.matchId = some mid)
    (hm : st.matchHeap.get? mid = some m)
    (hend : m.ended = false)
    (hne : m.p1 ≠ m.p2)
    (ha : getPlayer (setPlayer st ws
      { p with
        matchId := some mid,
        bestScore := getIntD fields "best_score" p.bestScore }) m.p1 = some a)
    (hb : getPlayer (setPlayer st ws
      { p with
        matchId := some mid,
        bestScore := getIntD fields "best_score" p.bestScore }) m.p2 = some b) :
    (handleMatchEnd eloFn st ws p fields).2 =
      [(m.p1, Msg.matchResult (outcomeOf a.bestScore b.bestScore).toStr
          a.bestScore b.bestScore
          (eloFn a.elo b.elo (outcomeOf a.bestScore b.bestScore))
          b.name b.elo b.playerId),
       (m.p2, Msg.matchResult (outcomeOf b.bestScore a.bestScore).toStr
          b.bestScore a.bestScore
          (eloFn b.elo a.elo (outcomeOf b.bestScore a.bestScore))
          a.name (max 100 (a.elo + eloFn a.elo b.elo (outcomeOf a.bestScore b.bestScore)))
          a.playerId)]
    ∧ getPlayer (handleMatchEnd eloFn st ws p fields).1 m.p1 =
        some { a with
          elo := max 100 (a.elo + eloFn a.elo b.elo (outcomeOf a.bestScore b.bestScore)),
          matchId := none }
    ∧ getPlayer (handleMatchEnd eloFn st ws p fields).1 m.p2 =
        some { b with
          elo := max 100 (b.elo + eloFn b.elo a.elo (outcomeOf b.bestScore a.bestScore)),
          matchId := none } := by
  have h := handleMatchEnd_spec eloFn st ws p fields mid m a b hmid hm hend hne ha hb
  exact ⟨h.1, h.2.1, h.2.2.1⟩

/-- Claim C3 witness: the amended theorem at the concrete `stMatched`
resolution, with every hypothesis discharged by evaluation. -/
theorem c3_match_result_witness :
    (handleMatchEnd eloDeltaEq stMatched 1 matchedP1 endFields).2 =
      [(1, Msg.matchResult "win" 10 0 16 "BB" 1000 ""),
       (2, Msg.matchResult "lose" 0 10 (-16) "AA" 1016 "")] :=
  (c3_match_result_ratings eloDeltaEq stMatched 1 matchedP1 endFields 0
    { p1 := 1, p2 := 2, seed := 0, ended := false }
    { matchedP1 with bestScore := 10 } matchedP2
    rfl rfl rfl (by decide) rfl rfl).1

/-! ### Claim C4 -/

/-- Claim C4 (counterexample): a client-reported rating is stored verbatim —
after `join_lobby` with `elo = 50` the stored rating is 50, below the
claimed floor of 100. -/
theorem c4_counterexample :
    (getPlayer (runTrace eloDeltaEq serverInit
      [Event.connect 1 "AA",
       Event.message 1 (some (JVal.jobj
         [("type", JVal.jstr "join_lobby"), ("elo", JVal.jnum 50)]))]) 1).map
      Player.elo = some 50
    ∧ ¬ (100 : Int) ≤ 50 :=
  ⟨rfl, by decide⟩

/-- Claim C4 (amended): the rating defaults to 1000 on connect, and the
server-side rating writes of match resolution and forfeit are floored at
100; but client-reported ratings (join/rejoin/update) are stored without
any floor, so the stored value can drop below 100. -/
theorem c4_rating_floor_amended :
    (∀ (eloFn : EloFn) (st : ServerState) (ws : Ws) (name : String),
      (getPlayer (step eloFn st (Event.connect ws name)).1 ws).map Player.elo =
        some 1000)
    ∧ (∀ (eloFn : EloFn) (st : ServerState) (ws : Ws) (p : Player)
        (fields : List (String × JVal)) (mid : Nat) (m : GameMatch) (a b : Player),
        p.matchId = some mid → st.matchHeap.get? mid = some m → m.ended = false →
        m.p1 ≠ m.p2 →
        getPlayer (setPlayer st ws
          { p with
            matchId := some mid,
            bestScore := getIntD fields "best_score" p.bestScore }) m.p1 = some a →
        getPlayer (setPlayer st ws
          { p with
            matchId := some mid,
            bestScore := getIntD fields "best_score" p.bestScore }) m.p2 = some b →
        (∀ q, getPlayer (handleMatchEnd eloFn st ws p fields).1 m.p1 = some q →
          100 ≤ q.elo) ∧
        (∀ q, getPlayer (handleMatchEnd eloFn st ws p fields).1 m.p2 = some q →
          100 ≤ q.elo))
    ∧ (∀ (eloFn : EloFn) (st : ServerState) (ws : Ws) (p : Player) (mid : Nat)
        (m : GameMatch) (oppWs : Ws) (o : Player),
        p.matchId = some mid → st.matchHeap.get? mid = some m → m.ended = false →
        oppWs = (if m.p1 == ws then m.p2 else m.p1) → getPlayer st oppWs = some o →
        ∀ q, getPlayer (forfeitMatch eloFn st ws p).1 oppWs = some q →
          100 ≤ q.elo) := by
  refine ⟨?_, ?_, ?_⟩
  · intro eloFn st ws name
    show Option.map Player.elo (getObj (putObj st.objs ws
      { id := st.nextId + 1, playerId := "", name := name, elo := 1000,
        inLobby := false, matchId := none, bestScore := 0 }) ws) = some 1000
    rw [getObj_putObj, if_pos rfl]
    rfl
  · intro eloFn st ws p fields mid m a b hmid hm hend hne ha hb
    have h := handleMatchEnd_spec eloFn st ws p fields mid m a b hmid hm hend hne ha hb
    constructor
    · intro q hq
      rw [h.2.1] at hq
      cases hq
      exact le_max_left 100 _
    · intro q hq
      rw [h.2.2.1] at hq
      cases hq
      exact le_max_left 100 _
  · intro eloFn st ws p mid m oppWs o hmid hm hend how ho q hq
    rw [(forfeitMatch_spec eloFn st ws p mid m oppWs o hmid hm hend how ho)] at hq
    rw [show getPlayer (setPlayer (setMatch st mid { m with ended := true }) oppWs
        { o with
          elo := max 100 (o.elo + eloFn o.elo p.elo MatchOutcome.win),
          matchId := none },
        [(oppWs, Msg.opponentDisconnected (eloFn o.elo p.elo MatchOutcome.win)
          o.bestScore p.bestScore p.name p.elo p.playerId)]).1 oppWs =
      getPlayer (setPlayer (setMatch st mid { m with ended := true }) oppWs
        { o with
          elo := max 100 (o.elo + eloFn o.elo p.elo MatchOutcome.win),
          matchId := none }) oppWs from rfl] at hq
    rw [getPlayer_setPlayer_self (setMatch st mid { m with ended := true })
      oppWs _ o ho] at hq
    cases hq
    exact le_max_left 100 _

/-- Claim C4 witness: the amended floor theorem at concrete inputs — connect
yields 1000, and both resolution paths on `stMatched` leave both
participants at or above 100. -/
theorem c4_rating_floor_witness :
    (getPlayer (step eloDeltaEq serverInit (Event.connect 1 "AA")).1 1).map
      Player.elo = some 1000
    ∧ (100 : Int) ≤ 984
    ∧ (100 : Int) ≤ 1016 :=
  ⟨c4_rating_floor_amended.1 eloDeltaEq serverInit 1 "AA",
   by
    have h := (c4_rating_floor_amended.2.1 eloDeltaEq stMatched 1 matchedP1 endFields 0
      { p1 := 1, p2 := 2, seed := 0, ended := false }
      { matchedP1 with bestScore := 10 } matchedP2
      rfl rfl rfl (by decide) rfl rfl).2
    exact h { matchedP2 with elo := 984, matchId := none } rfl,
   by
    have h := c4_rating_floor_amended.2.2 eloDeltaEq stMatched 2 matchedP2 0
      { p1 := 1, p2 := 2, seed := 0, ended := false } 1 matchedP1
      rfl rfl rfl rfl rfl
    exact h { matchedP1 with elo := 1016, matchId := none } rfl⟩

/-! ### Claim C5 -/

/-- A payload outside the handled schema: undecodable text, or a decoded
JSON object whose `type` is missing, non-string, or not one of the seven
handled message types. -/
def schemaRejected (raw : Option JVal) : Prop :=
  raw = none ∨ ∃ fields, raw = some (JVal.jobj fields) ∧
    typeIs fields "join_lobby" = false ∧ typeIs fields "leave_lobby" = false ∧
    typeIs fields "challenge" = false ∧ typeIs fields "score_update" = false ∧
    typeIs fields "match_end" = false ∧ typeIs fields "rejoin_lobby" = false ∧
    typeIs fields "update_info" = false

/-- Claim C5 (counterexample): a payload that decodes to a valid JSON value
that is NOT an object — here the array `[]` — is not dropped silently:
`data.get` raises an uncaught `AttributeError`, and the session is torn
down (its registry entry disappears), so the connection does not stay
open. -/
theorem c5_counterexample :
    processRaw eloDeltaEq stOne 1 (some (JVal.jarr [])) = Except.error ()
    ∧ (step eloDeltaEq stOne (Event.message 1 (some (JVal.jarr [])))).1.reg = []
    ∧ stOne.reg = [1] :=
  ⟨rfl, rfl, rfl⟩

/-- Claim C5 (amended): undecodable payloads and decoded OBJECTS with a
missing, wrong-typed, or unrecognized `type` discriminator are silently
dropped (no reply, no state change, processing continues); but a decoded
non-object payload raises an uncaught exception (`data.get` on a
non-dict), which terminates the connection's handler and tears the
session down as a disconnect. -/
theorem c5_malformed_amended :
    (∀ (eloFn : EloFn) (st : ServerState) (ws : Ws) (raw : Option JVal),
      schemaRejected raw → processRaw eloFn st ws raw = Except.ok (st, []))
    ∧ (∀ (eloFn : EloFn) (st : ServerState) (ws : Ws) (p : Player) (v : JVal),
        getPlayer st ws = some p → (∀ fields, v ≠ JVal.jobj fields) →
        processRaw eloFn st ws (some v) = Except.error ()) := by
  constructor
  · intro eloFn st ws raw hr
    rcases hr with rfl | ⟨fields, rfl, h1, h2, h3, h4, h5, h6, h7⟩
    · cases hgp : getPlayer st ws <;> simp [processRaw, hgp]
    · cases hgp : getPlayer st ws <;>
        simp [processRaw, hgp, h1, h2, h3, h4, h5, h6, h7]
  · intro eloFn st ws p v hp hv
    cases v with
    | jobj fields => exact absurd rfl (hv fields)
    | jnull => simp [processRaw, hp]
    | jbool b => simp [processRaw, hp]
    | jnum n => simp [processRaw, hp]
    | jstr s => simp [processRaw, hp]
    | jarr elems => simp [processRaw, hp]

/-- Claim C5 witness: the amended theorem at concrete payloads — a decode
failure and an unknown-type object are dropped silently, a numeric
payload raises. -/
theorem c5_malformed_witness :
    processRaw eloDeltaEq stOne 1 none = Except.ok (stOne, [])
    ∧ processRaw eloDeltaEq stOne 1
        (some (JVal.jobj [("type", JVal.jnum 5)])) = Except.ok (stOne, [])
    ∧ processRaw eloDeltaEq stOne 1 (some (JVal.jnum 7)) = Except.error () :=
  ⟨c5_malformed_amended.1 eloDeltaEq stOne 1 none (Or.inl rfl),
   c5_malformed_amended.1 eloDeltaEq stOne 1 _
     (Or.inr ⟨[("type", JVal.jnum 5)], rfl, rfl, rfl, rfl, rfl, rfl, rfl, rfl⟩),
   c5_malformed_amended.2 eloDeltaEq stOne 1
     { id := 1, playerId := "", name := "AA", elo := 1000, inLobby := false,
       matchId := none, bestScore := 0 }
     (JVal.jnum 7) rfl (fun _ h => JVal.noConfusion h)⟩

/-! ### Claim C6 -/

/-- Claim C6: `challenge` validates in a fixed order and fails fast — target
exists and is lobby-resident, else "Player is no longer available"; then
target is not the requester, else "Cannot challenge yourself"; then the
requester is lobby-resident, else "You are not in the lobby" — and on any
failure returns the state COMPLETELY unchanged with exactly one
`challenge_failed` message to the requester. -/
theorem c6_challenge_validation (st : ServerState) (ws : Ws) (p : Player)
    (fields : List (String × JVal)) :
    ((findByTid st fields = none ∨
        ∃ tws t, findByTid st fields = some (tws, t) ∧ t.inLobby = false) →
      handleChallenge st ws p fields =
        (st, [(ws, Msg.challengeFailed "Player is no longer available")]))
    ∧ (∀ tws t, findByTid st fields = some (tws, t) → t.inLobby = true →
        t.id = p.id →
        handleChallenge st ws p fields =
          (st, [(ws, Msg.challengeFailed "Cannot challenge yourself")]))
    ∧ (∀ tws t, findByTid st fields = some (tws, t) → t.inLobby = true →
        t.id ≠ p.id → p.inLobby = false →
        handleChallenge st ws p fields =
          (st, [(ws, Msg.challengeFailed "You are not in the lobby")])) := by
  refine ⟨?_, ?_, ?_⟩
  · rintro (hf | ⟨tws, t, hf, hlob⟩)
    · simp [handleChallenge, hf]
    · simp [handleChallenge, hf, hlob]
  · intro tws t hf hlob hid
    simp [handleChallenge, hf, hlob, hid]
  · intro tws t hf hlob hid hplob
    simp [handleChallenge, hf, hlob, hid, hplob]

/-- Player 1 while idle (connected, not in the lobby). -/
def idleP1 : Player :=
  { id := 1, playerId := "", name := "AA", elo := 1000, inLobby := false,
    matchId := none, bestScore := 0 }

/-- Player 1 while lobby-resident. -/
def lobbyP1 : Player :=
  { id := 1, playerId := "", name := "AA", elo := 1000, inLobby := true,
    matchId := none, bestScore := 0 }

/-- Player 2 while lobby-resident. -/
def lobbyP2 : Player :=
  { id := 2, playerId := "", name := "BB", elo := 1000, inLobby := true,
    matchId := none, bestScore := 0 }

/-- Claim C6 witness: all three validation branches exercised at concrete
states — absent target id 5, self-challenge, and a non-lobby requester. -/
theorem c6_challenge_witness :
    handleChallenge stOne 1 idleP1 [("target_id", JVal.jnum 5)] =
      (stOne, [(1, Msg.challengeFailed "Player is no longer available")])
    ∧ handleChallenge stLobby1 1 lobbyP1 [("target_id", JVal.jnum 1)] =
      (stLobby1, [(1, Msg.challengeFailed "Cannot challenge yourself")])
    ∧ handleChallenge stTargetLobby 1 idleP1 [("target_id", JVal.jnum 2)] =
      (stTargetLobby, [(1, Msg.challengeFailed "You are not in the lobby")]) :=
  ⟨(c6_challenge_validation stOne 1 idleP1 _).1 (Or.inl rfl),
   (c6_challenge_validation stLobby1 1 lobbyP1 _).2.1 1 lobbyP1 rfl rfl rfl,
   (c6_challenge_validation stTargetLobby 1 idleP1 _).2.2 2 lobbyP2 rfl rfl
     (by decide) rfl⟩

/-! ### Claim C7 -/

/-- Claim C7: disconnecting a session with an active unended match marks the
match ended, credits the remaining participant with a guaranteed-win
rating delta at the current ratings (whatever the running scores),
applies and floors the update, detaches the remaining participant's match
reference, and emits exactly one message — `opponent_disconnected` to the
remaining participant with the delta and both running scores — while the
disconnecting session gets no message and leaves the registry. -/
theorem c7_disconnect_forfeit (eloFn : EloFn) (st : ServerState) (ws : Ws)
    (p : Player) (mid : Nat) (m : GameMatch) (oppWs : Ws) (o : Player)
    (hp : getPlayer st ws = some p)
    (hmid : p.matchId = some mid)
    (hm : st.matchHeap.get? mid = some m)
    (hend : m.ended = false)
    (how : oppWs = if m.p1 == ws then m.p2 else m.p1)
    (ho : getPlayer st oppWs = some o)
    (hlob : p.inLobby = false) :
    (handleDisconnect eloFn st ws).2 =
      [(oppWs, Msg.opponentDisconnected (eloFn o.elo p.elo MatchOutcome.win)
        o.bestScore p.bestScore p.name p.elo p.playerId)]
    ∧ ws ∉ (handleDisconnect eloFn st ws).1.reg
    ∧ (handleDisconnect eloFn st ws).1.matchHeap.get? mid =
        some { m with ended := true }
    ∧ getPlayer (handleDisconnect eloFn st ws).1 oppWs =
        some { o with
          elo := max 100 (o.elo + eloFn o.elo p.elo MatchOutcome.win),
          matchId := none } := by
  have hf := forfeitMatch_spec eloFn st ws p mid m oppWs o hmid hm hend how ho
  have hlen : mid < st.matchHeap.length := by
    rw [List.get?_eq_getElem?] at hm
    exact (List.getElem?_eq_some_iff.mp hm).1
  simp only [handleDisconnect, hp, hf, hlob, Bool.false_eq_true, if_false]
  refine ⟨?_, ?_, ?_, ?_⟩
  · simp
  · simp [List.mem_filter]
  · simp [List.getElem?_set_self hlen]
  · show getPlayer (setPlayer (setMatch st mid { m with ended := true }) oppWs
      { o with
        elo := max 100 (o.elo + eloFn o.elo p.elo MatchOutcome.win),
        matchId := none }) oppWs = _
    exact getPlayer_setPlayer_self (setMatch st mid { m with ended := true })
      oppWs _ o ho

/-- Claim C7 witness: session 2 disconnects from the live match of `stMatched`
— session 1 receives the single `opponent_disconnected` message and
session 2 leaves the registry. -/
theorem c7_disconnect_witness :
    (handleDisconnect eloDeltaEq stMatched 2).2 =
      [(1, Msg.opponentDisconnected 16 0 0 "BB" 1000 "")]
    ∧ (2 : Ws) ∉ (handleDisconnect eloDeltaEq stMatched 2).1.reg := by
  have h := c7_disconnect_forfeit eloDeltaEq stMatched 2 matchedP2 0
    { p1 := 1, p2 := 2, seed := 0, ended := false } 1 matchedP1
    rfl rfl rfl rfl rfl rfl rfl
  exact ⟨h.1, h.2.1⟩

/-! ### Claim C9 -/

/-- Claim C9: a `score_update` whose payload has no `best_score` field, sent by
a session with an active unended match, stores 0 as the running score
(discarding the previous value) and relays 0 to the other participant —
it is not a no-op. -/
theorem c9_score_update_default (st : ServerState) (ws : Ws) (p : Player)
    (fields : List (String × JVal)) (mid : Nat) (m : GameMatch)
    (hp : getPlayer st ws = some p)
    (hmid : p.matchId = some mid)
    (hm : st.matchHeap.get? mid = some m)
    (hend : m.ended = false)
    (hbs : jlookup fields "best_score" = none) :
    handleScore st ws p fields =
      (setPlayer st ws { p with bestScore := 0 },
        [(if m.p1 == ws then m.p2 else m.p1, Msg.opponentScore 0)])
    ∧ getPlayer (handleScore st ws p fields).1 ws =
        some { p with bestScore := 0 } := by
  have hz : getIntD fields "best_score" 0 = 0 := by simp [getIntD, hbs]
  constructor
  · simp only [handleScore, hmid, hm, hend, Bool.false_eq_true, if_false, hz]
  · simp only [handleScore, hmid, hm, hend, Bool.false_eq_true, if_false, hz]
    exact getPlayer_setPlayer_self st ws _ p hp

/-- Claim C9 witness: in `stMatched`, session 1 sends `score_update` with no
`best_score` — its stored score becomes 0 and 0 is relayed to session 2. -/
theorem c9_score_update_witness :
    handleScore stMatched 1 matchedP1 [("type", JVal.jstr "score_update")] =
      (setPlayer stMatched 1 { matchedP1 with bestScore := 0 },
        [(2, Msg.opponentScore 0)]) := by
  have h := (c9_score_update_default stMatched 1 matchedP1
    [("type", JVal.jstr "score_update")] 0
    { p1 := 1, p2 := 2, seed := 0, ended := false } rfl rfl rfl rfl rfl).1
  exact h

/-! ### Claim C10 -/

/-- Claim C10: the forfeiture block mutates ONLY the remaining participant's
rating and match reference — its lobby flag (false before, false after),
session id, name, client player id and running score are untouched, every
other session's object is unchanged, and the registry is unchanged (the
disconnecting session's removal happens afterwards, outside this block). -/
theorem c10_forfeit_frame (eloFn : EloFn) (st : ServerState) (ws : Ws)
    (p : Player) (mid : Nat) (m : GameMatch) (oppWs : Ws) (o : Player)
    (hmid : p.matchId = some mid)
    (hm : st.matchHeap.get? mid = some m)
    (hend : m.ended = false)
    (how : oppWs = if m.p1 == ws then m.p2 else m.p1)
    (ho : getPlayer st oppWs = some o)
    (holob : o.inLobby = false) :
    (forfeitMatch eloFn st ws p).1.reg = st.reg
    ∧ getPlayer (forfeitMatch eloFn st ws p).1 oppWs =
        some { o with
          elo := max 100 (o.elo + eloFn o.elo p.elo MatchOutcome.win),
          matchId := none }
    ∧ (∀ w, w ≠ oppWs →
        getPlayer (forfeitMatch eloFn st ws p).1 w = getPlayer st w)
    ∧ Option.map Player.inLobby
        (getPlayer (forfeitMatch eloFn st ws p).1 oppWs) = some false
    ∧ Option.map Player.id
        (getPlayer (forfeitMatch eloFn st ws p).1 oppWs) = some o.id
    ∧ Option.map Player.name
        (getPlayer (forfeitMatch eloFn st ws p).1 oppWs) = some o.name
    ∧ Option.map Player.playerId
        (getPlayer (forfeitMatch eloFn st ws p).1 oppWs) = some o.playerId
    ∧ Option.map Player.bestScore
        (getPlayer (forfeitMatch eloFn st ws p).1 oppWs) = some o.bestScore := by
  have hf := forfeitMatch_spec eloFn st ws p mid m oppWs o hmid hm hend how ho
  have hlook : getPlayer (forfeitMatch eloFn st ws p).1 oppWs =
      some { o with
        elo := max 100 (o.elo + eloFn o.elo p.elo MatchOutcome.win),
        matchId := none } := by
    rw [hf]
    exact getPlayer_setPlayer_self (setMatch st mid { m with ended := true })
      oppWs _ o ho
  have hreg : (forfeitMatch eloFn st ws p).1.reg = st.reg := by rw [hf]; rfl
  have hframe : ∀ w, w ≠ oppWs →
      getPlayer (forfeitMatch eloFn st ws p).1 w = getPlayer st w := by
    intro w hw
    rw [hf]
    show getPlayer (setPlayer (setMatch st mid { m with ended := true }) oppWs
      { o with
        elo := max 100 (o.elo + eloFn o.elo p.elo MatchOutcome.win),
        matchId := none }) w = getPlayer st w
    rw [getPlayer_setPlayer_ne _ _ _ _ hw]
    rfl
  refine ⟨hreg, hlook, hframe, ?_, ?_, ?_, ?_, ?_⟩ <;> rw [hlook] <;> simp [holob]

/-- Claim C10 witness: forfeiting the live match of `stMatched` on session 2's
behalf changes only session 1's rating and match reference; session 2's
object and the registry are untouched. -/
theorem c10_forfeit_witness :
    (forfeitMatch eloDeltaEq stMatched 2 matchedP2).1.reg = stMatched.reg
    ∧ getPlayer (forfeitMatch eloDeltaEq stMatched 2 matchedP2).1 1 =
        some { matchedP1 with elo := 1016, matchId := none }
    ∧ getPlayer (forfeitMatch eloDeltaEq stMatched 2 matchedP2).1 2 =
        getPlayer stMatched 2 := by
  have h := c10_forfeit_frame eloDeltaEq stMatched 2 matchedP2 0
    { p1 := 1, p2 := 2, seed := 0, ended := false } 1 matchedP1
    rfl rfl rfl rfl rfl rfl
  exact ⟨h.1, h.2.1.trans (by decide), h.2.2.1 2 (by decide)⟩

end LaserChess
